import Mathlib

/-!
Verification development for `reach`, a parallel batch-execution engine that
applies one external command to every regular file in a source directory
(src/lib.rs, src/main.rs, src/progress.rs).

Shallow embedding conventions:
* Rust `String`/`OsString` values are `List Char` (`Str`); filesystem paths are
  lists of components (`FilePath`).
* `io::Error` is modelled by its `kind`, the only attribute the code inspects.
* Fallible I/O operations (metadata lookup, file open, directory creation,
  file creation, spawn, wait) are oracles: their outcomes are fields of
  `DirEntry` / `TaskWorld` fixed in advance, and the embedded functions
  sequence them exactly as the source does.
* Each task additionally produces a trace of destination-side effects
  (`Event`), recording which directories/files were successfully created and
  which processes were spawned.
* `futures::TryStreamExt::try_for_each_concurrent(limit, f)` is modelled in
  two complementary ways: `Each.runTasks` is the fail-fast functional view
  (the combinator stops admitting work and returns the first error), and
  `SchedStep`/`Reachable` is a transition system capturing its
  bounded-concurrency admission discipline for the concurrency claim.
-/

namespace Reach

/-- Rust `String` / `str` contents, embedded as a list of characters. -/
abbrev Str := List Char

/-- A filesystem path as a list of components (Rust `PathBuf`; `push` is
appending a component). -/
abbrev FilePath := List Str

/-- The `io::ErrorKind` values the code distinguishes (`NotFound` in
`ensure_directory`, `Unsupported` in `FilenameRunner::get_command`), plus a
catch-all for every other kind. -/
inductive ErrorKind
  | notFound
  | unsupported
  | otherKind
deriving DecidableEq, Repr

/-- `std::io::Error`, modelled by its kind — the only attribute the source
inspects (`error.kind()` in `ensure_directory`). -/
structure IOError where
  kind : ErrorKind
deriving DecidableEq, Repr

/-- The slice of `std::fs::Metadata` the code uses: `metadata.is_file()`. -/
structure Metadata where
  is_file : Bool
deriving DecidableEq, Repr

instance {ε α : Type} [DecidableEq ε] [DecidableEq α] :
    DecidableEq (Except ε α) := fun x y =>
  match x, y with
  | .ok a, .ok b =>
    if h : a = b then isTrue (congrArg Except.ok h)
    else isFalse fun hc => h (Except.ok.inj hc)
  | .ok _, .error _ => isFalse fun hc => Except.noConfusion hc
  | .error _, .ok _ => isFalse fun hc => Except.noConfusion hc
  | .error a, .error b =>
    if h : a = b then isTrue (congrArg Except.error h)
    else isFalse fun hc => h (Except.error.inj hc)

/-- A directory entry as `Each::run` sees it (`tokio::fs::DirEntry`), together
with the predetermined outcomes of the fallible operations performed on it:
`metadata()` (line 65 of lib.rs) and, for stdin mode, `File::open(path)`
(line 105). `pathText` models `path().to_str()`: `none` is a non-unicode
path, `some s` its textual form. -/
structure DirEntry where
  name : Str
  path : FilePath
  pathText : Option Str
  metadata : Except IOError Metadata
  openResult : Except IOError Unit
deriving DecidableEq, Repr

/-- Predetermined outcomes of the destination-side fallible operations one
task performs, in source order: `fs::create_dir_all` (via `ensure_directory`),
`File::create` of `out`, `File::create` of `err`, `Command::spawn`, and
`Child::wait` (whose `Ok` value is the child's exit status). -/
structure TaskWorld where
  createDirAll : Except IOError Unit
  createOut : Except IOError Unit
  createErr : Except IOError Unit
  spawnResult : Except IOError Unit
  waitResult : Except IOError Int
deriving DecidableEq, Repr

/-- A `tokio::process::Command` under construction: the program, its
arguments, and which file (if any) was wired to the child's standard input
via `.stdin(file)`. -/
structure Command where
  program : Str
  args : List Str
  stdin : Option FilePath
deriving DecidableEq, Repr

/-- Destination-side effects of a task, recorded only when the underlying
operation succeeded: `mkdirAll p` — `fs::create_dir_all(p)` returned `Ok`
(creates all missing intermediate segments, idempotent for existing
directories); `createFile p` — `File::create(p)` returned `Ok` (creates the
file, truncating any existing content); `spawned c` — `c.spawn()` returned
`Ok`. -/
inductive Event
  | mkdirAll (p : FilePath)
  | createFile (p : FilePath)
  | spawned (c : Command)
deriving DecidableEq, Repr

/-- `ensure_directory` (lib.rs lines 216–225): wraps the raw
`fs::create_dir_all` outcome, turning a `NotFound`-kind error into `Ok` and
propagating every other error. -/
def ensure_directory (createDirAllResult : Except IOError Unit) :
    Except IOError Unit :=
  match createDirAllResult with
  | .ok _ => .ok ()
  | .error e =>
    match e.kind with
    | ErrorKind.notFound => .ok ()
    | _ => .error e

/-- `StdinRunner` (lib.rs lines 84–98). -/
structure StdinRunner where
  shell : Str
  command : Str
  destination_dir : FilePath
deriving DecidableEq, Repr

/-- `StdinRunner::get_command` (lib.rs lines 102–109): open the source file
(propagating an open failure), then build `shell -c <command>` with the
opened file wired to standard input. The command string is used verbatim. -/
def StdinRunner.get_command (r : StdinRunner) (source_file : DirEntry) :
    Except IOError Command :=
  match source_file.openResult with
  | .error e => .error e
  | .ok _ =>
    .ok { program := r.shell
          args := [['-', 'c'], r.command]
          stdin := some source_file.path }

/-- `StdinRunner::run` (lib.rs lines 111–133): build the command, ensure the
per-file result directory `destination_dir/<name>` exists, create (truncate)
`out` and `err` inside it, spawn the child with its output streams redirected
there, and wait for it — discarding the exit status. Returns the
destination-side event trace alongside the result. -/
def StdinRunner.run (r : StdinRunner) (source_file : DirEntry)
    (w : TaskWorld) : List Event × Except IOError Unit :=
  match r.get_command source_file with
  | .error e => ([], .error e)
  | .ok command =>
    let base_directory := r.destination_dir ++ [source_file.name]
    let dirEvents : List Event :=
      match w.createDirAll with
      | .ok _ => [Event.mkdirAll base_directory]
      | .error _ => []
    match ensure_directory w.createDirAll with
    | .error e => (dirEvents, .error e)
    | .ok _ =>
      let out_path := base_directory ++ [['o', 'u', 't']]
      match w.createOut with
      | .error e => (dirEvents, .error e)
      | .ok _ =>
        let err_path := base_directory ++ [['e', 'r', 'r']]
        match w.createErr with
        | .error e => (dirEvents ++ [Event.createFile out_path], .error e)
        | .ok _ =>
          match w.spawnResult with
          | .error e =>
            (dirEvents ++ [Event.createFile out_path,
              Event.createFile err_path], .error e)
          | .ok _ =>
            match w.waitResult with
            | .error e =>
              (dirEvents ++ [Event.createFile out_path,
                Event.createFile err_path, Event.spawned command], .error e)
            | .ok _status =>
              (dirEvents ++ [Event.createFile out_path,
                Event.createFile err_path, Event.spawned command], .ok ())

/-- `FilenameRunner` (lib.rs lines 136–150). -/
structure FilenameRunner where
  shell : Str
  command : Str
  destination_dir : FilePath
deriving DecidableEq, Repr

/-- Rust `str::replace(self, "{\x7d", rep)` specialised to the two-character
pattern the source uses: scan left to right, replacing each non-overlapping
occurrence of `{\x7d` with `rep` (the replacement is not rescanned). -/
def replaceBraces (rep : Str) : Str → Str
  | [] => []
  | [c] => [c]
  | c1 :: c2 :: rest =>
    if c1 = '{' ∧ c2 = '}' then rep ++ replaceBraces rep rest
    else c1 :: replaceBraces rep (c2 :: rest)

/-- `FilenameRunner::get_command` (lib.rs lines 154–167): require the source
path to be valid unicode text, failing with an `Unsupported`-kind error
otherwise; then build `shell -c <command with every {\x7d replaced by the
path>`, with no standard-input wiring. -/
def FilenameRunner.get_command (r : FilenameRunner)
    (source_file : DirEntry) : Except IOError Command :=
  match source_file.pathText with
  | none => .error { kind := ErrorKind.unsupported }
  | some source_path =>
    .ok { program := r.shell
          args := [['-', 'c'], replaceBraces source_path r.command]
          stdin := none }

/-- `FilenameRunner::run` (lib.rs lines 169–192): identical to
`StdinRunner.run` except for how the command is built (the source notes it is
a near duplicate). -/
def FilenameRunner.run (r : FilenameRunner) (source_file : DirEntry)
    (w : TaskWorld) : List Event × Except IOError Unit :=
  match r.get_command source_file with
  | .error e => ([], .error e)
  | .ok command =>
    let base_directory := r.destination_dir ++ [source_file.name]
    let dirEvents : List Event :=
      match w.createDirAll with
      | .ok _ => [Event.mkdirAll base_directory]
      | .error _ => []
    match ensure_directory w.createDirAll with
    | .error e => (dirEvents, .error e)
    | .ok _ =>
      let out_path := base_directory ++ [['o', 'u', 't']]
      match w.createOut with
      | .error e => (dirEvents, .error e)
      | .ok _ =>
        let err_path := base_directory ++ [['e', 'r', 'r']]
        match w.createErr with
        | .error e => (dirEvents ++ [Event.createFile out_path], .error e)
        | .ok _ =>
          match w.spawnResult with
          | .error e =>
            (dirEvents ++ [Event.createFile out_path,
              Event.createFile err_path], .error e)
          | .ok _ =>
            match w.waitResult with
            | .error e =>
              (dirEvents ++ [Event.createFile out_path,
                Event.createFile err_path, Event.spawned command], .error e)
            | .ok _status =>
              (dirEvents ++ [Event.createFile out_path,
                Event.createFile err_path, Event.spawned command], .ok ())

/-- `Each` (lib.rs lines 41–44): the scheduler state, `source_dir` plus the
concurrency limit `num_processes`. -/
structure Each where
  source_dir : FilePath
  num_processes : Nat
deriving DecidableEq, Repr

/-- The closure `Each::run` passes to `try_for_each_concurrent`
(lib.rs lines 64–71): look up the entry's metadata (propagating a lookup
failure), run the task if it is a regular file, and silently skip it
otherwise. Parameterised by the `Runner::run` implementation in use. -/
def Each.processEntry
    (task : DirEntry → TaskWorld → List Event × Except IOError Unit)
    (source_file : DirEntry) (w : TaskWorld) :
    List Event × Except IOError Unit :=
  match source_file.metadata with
  | .error e => ([], .error e)
  | .ok metadata =>
    if metadata.is_file then task source_file w else ([], .ok ())

/-- The fail-fast functional view of
`try_for_each_concurrent(num_processes, ...)` followed by `?` in `Each::run`
(lib.rs lines 60–74): entries are processed until one fails, the first error
is returned as the overall result (aborting admission of the remaining
entries), and `Ok(())` is returned only if every entry succeeded.
Sequential order here corresponds to the `num_processes = 1` schedule; the
concurrency discipline itself is modelled by `SchedStep` below. -/
def Each.runTasks
    (task : DirEntry → TaskWorld → List Event × Except IOError Unit) :
    List (DirEntry × TaskWorld) → List Event × Except IOError Unit
  | [] => ([], .ok ())
  | p :: rest =>
    match Each.processEntry task p.1 p.2 with
    | (evs, .error err) => (evs, .error err)
    | (evs, .ok _) =>
      (evs ++ (Each.runTasks task rest).1, (Each.runTasks task rest).2)

/-- Whether a string contains an occurrence of the two-character token
`{\x7d` (used to characterise `replaceBraces`). -/
def hasBraces : Str → Bool
  | [] => false
  | [_] => false
  | c1 :: c2 :: rest =>
    if c1 = '{' ∧ c2 = '}' then true else hasBraces (c2 :: rest)

/-- Joining a list of segments with a separator (spec-side helper: a command
template decomposes as brace-free segments joined by `{\x7d`, and the
substituted command is the same segments joined by the path). -/
def joinSep (sep : Str) : List Str → Str
  | [] => []
  | [s] => s
  | s :: s2 :: rest => s ++ sep ++ joinSep sep (s2 :: rest)

/-- The state of the bounded-concurrency fan-out driven by
`try_for_each_concurrent(num_processes, ...)` in `Each::run`: how many tasks
are not yet started, currently in flight, and finished. -/
structure SchedState where
  pending : Nat
  inFlight : Nat
  done : Nat
deriving DecidableEq, Repr

/-- Transition system of `try_for_each_concurrent(E.num_processes, ...)` in
`Each::run` (lib.rs lines 60–74): a pending task may start whenever fewer
than `num_processes` tasks are in flight, and an in-flight task may finish at
any time. -/
inductive SchedStep (E : Each) : SchedState → SchedState → Prop
  | start (p f d : Nat) (h : f < E.num_processes) :
      SchedStep E ⟨p + 1, f, d⟩ ⟨p, f + 1, d⟩
  | finish (p f d : Nat) :
      SchedStep E ⟨p, f + 1, d⟩ ⟨p, f, d + 1⟩

/-- States reachable during a run of `Each::run` over `n` tasks, starting
from all `n` pending. -/
inductive SchedReachable (E : Each) (n : Nat) : SchedState → Prop
  | init : SchedReachable E n ⟨n, 0, 0⟩
  | step {s s' : SchedState} (hr : SchedReachable E n s)
      (hs : SchedStep E s s') : SchedReachable E n s'

/-- The calls `Each::run` makes on the supplied progress reporter
(the `Progress` trait of progress.rs lines 10–13): `set_num_tasks` with the
total, and `task_completed` with each task's `io::Result<ExitStatus>`. -/
inductive ProgressCall
  | set_num_tasks (tasks : Nat)
  | task_completed (result : Except IOError Int)
deriving DecidableEq, Repr

/-- Whether a directory entry is an eligible task: its metadata lookup
succeeded and reports a regular file. -/
def isRegular (e : DirEntry) : Bool :=
  match e.metadata with
  | .ok metadata => metadata.is_file
  | .error _ => false

/-- Modelled from the spec: the progress-wired scheduler entry point
`run(config, progress)` that main.rs and tests/integration.rs call is absent
from lib.rs (whose `run` takes only a `Config` and never touches
`progress::Progress`). Following the spec — the file list is materialised,
the reporter is told the total number of eligible tasks (regular files) once
before work starts, and each eligible task's outcome (success or failure) is
handed to `task_completed` exactly once — this definition records the
sequence of reporter calls such a run performs, given each eligible task's
outcome function. -/
def runWithProgress (taskOutcome : DirEntry → Except IOError Int)
    (entries : List DirEntry) : List ProgressCall :=
  let eligible := entries.filter isRegular
  ProgressCall.set_num_tasks eligible.length ::
    eligible.map (fun e => ProgressCall.task_completed (taskOutcome e))

/-! Concrete sample data used by witnesses and counterexamples. -/

/-- A sample stdin-mode runner: shell `sh`, command `cat`, destination `d`. -/
def sampleStdin : StdinRunner :=
  { shell := ['s', 'h'], command := ['c', 'a', 't'],
    destination_dir := [['d']] }

/-- A sample filename-mode runner: shell `sh`, command `echo {\x7d`,
destination `d`. -/
def sampleFilename : FilenameRunner :=
  { shell := ['s', 'h'],
    command := ['e', 'c', 'h', 'o', ' ', '{', '}'],
    destination_dir := [['d']] }

/-- A sample regular-file entry `s/f` whose fallible operations all
succeed. -/
def entryGood : DirEntry :=
  { name := ['f'], path := [['s'], ['f']], pathText := some ['s', '/', 'f'],
    metadata := .ok { is_file := true }, openResult := .ok () }

/-- A sample entry `s/b` whose metadata lookup fails. -/
def entryBadMeta : DirEntry :=
  { name := ['b'], path := [['s'], ['b']], pathText := some ['s', '/', 'b'],
    metadata := .error { kind := ErrorKind.otherKind },
    openResult := .ok () }

/-- A sample directory entry `s/sub` that is not a regular file. -/
def entryDir : DirEntry :=
  { name := ['s', 'u', 'b'], path := [['s'], ['s', 'u', 'b']],
    pathText := some ['s', '/', 's', 'u', 'b'],
    metadata := .ok { is_file := false }, openResult := .ok () }

/-- A task world in which every destination-side operation succeeds and the
child exits with status 0. -/
def worldOk : TaskWorld :=
  { createDirAll := .ok (), createOut := .ok (), createErr := .ok (),
    spawnResult := .ok (), waitResult := .ok 0 }

/-- A task world whose `fs::create_dir_all` fails with a `NotFound`-kind
error while everything else succeeds. -/
def worldDirNotFound : TaskWorld :=
  { createDirAll := .error { kind := ErrorKind.notFound },
    createOut := .ok (), createErr := .ok (),
    spawnResult := .ok (), waitResult := .ok 0 }

/-- A sample entry `s/x` that is a regular file but cannot be opened. -/
def entryOpenFail : DirEntry :=
  { name := ['x'], path := [['s'], ['x']], pathText := some ['s', '/', 'x'],
    metadata := .ok { is_file := true },
    openResult := .error { kind := ErrorKind.otherKind } }

/-- A sample entry `s/n` whose path is not valid unicode text
(`path().to_str()` returns `None`). -/
def entryNonUnicode : DirEntry :=
  { name := ['n'], path := [['s'], ['n']], pathText := none,
    metadata := .ok { is_file := true }, openResult := .ok () }

/-- A task world in which everything succeeds and the child exits with the
nonzero status 7. -/
def worldExit7 : TaskWorld :=
  { createDirAll := .ok (), createOut := .ok (), createErr := .ok (),
    spawnResult := .ok (), waitResult := .ok 7 }

/-- A task world whose `fs::create_dir_all` fails with an error of a kind
other than `NotFound`. -/
def worldDirOtherErr : TaskWorld :=
  { createDirAll := .error { kind := ErrorKind.otherKind },
    createOut := .ok (), createErr := .ok (),
    spawnResult := .ok (), waitResult := .ok 0 }

/-- A task world whose `File::create` of `out` fails while everything else
succeeds. -/
def worldOutFail : TaskWorld :=
  { createDirAll := .ok (),
    createOut := .error { kind := ErrorKind.otherKind },
    createErr := .ok (), spawnResult := .ok (), waitResult := .ok 0 }

/-- Discriminator for `set_num_tasks` reporter calls. -/
def isSetNumTasks : ProgressCall → Bool
  | .set_num_tasks _ => true
  | .task_completed _ => false

/-- Discriminator for `task_completed` reporter calls. -/
def isTaskCompleted : ProgressCall → Bool
  | .set_num_tasks _ => false
  | .task_completed _ => true

/-! Helper lemmas. -/

/-- Scanning past a brace-free segment: if `s` contains no `{\x7d` and what
follows is empty or starts with `{` (so no occurrence straddles the
boundary), `replaceBraces` copies `s` through unchanged. -/
theorem replaceBraces_append (rep : Str) :
    ∀ s rest : Str, hasBraces s = false →
      (rest = [] ∨ ∃ t, rest = '{' :: t) →
      replaceBraces rep (s ++ rest) = s ++ replaceBraces rep rest := by
  intro s
  induction s with
  | nil => intro rest _ _; simp
  | cons c s' ih =>
    intro rest hs hrest
    cases s' with
    | nil =>
      rcases hrest with h0 | ⟨t, ht⟩
      · subst h0; simp [replaceBraces]
      · subst ht
        simp only [List.cons_append, List.nil_append]
        rw [replaceBraces, if_neg (by simp)]
    | cons c2 s'' =>
      by_cases hnb : c = '{' ∧ c2 = '}'
      · rw [hasBraces, if_pos hnb] at hs
        exact Bool.noConfusion hs
      · rw [hasBraces, if_neg hnb] at hs
        simp only [List.cons_append]
        rw [replaceBraces, if_neg hnb]
        have := ih rest hs hrest
        simp only [List.cons_append] at this
        rw [this]

/-- If a command template decomposes into brace-free segments joined by
`{\x7d`, then `replaceBraces` yields the same segments joined by the
replacement: every occurrence is replaced and nothing else is altered. -/
theorem replaceBraces_joinSep (rep : Str) :
    ∀ pieces : List Str, (∀ s ∈ pieces, hasBraces s = false) →
      replaceBraces rep (joinSep ['{', '}'] pieces) = joinSep rep pieces := by
  intro pieces
  induction pieces with
  | nil => intro _; rfl
  | cons s rest ih =>
    intro hnb
    cases rest with
    | nil =>
      have h := replaceBraces_append rep s [] (hnb s (by simp)) (Or.inl rfl)
      simpa [joinSep, replaceBraces] using h
    | cons s2 rest' =>
      have h1 : hasBraces s = false := hnb s (by simp)
      have ih' := ih (fun x hx => hnb x (by simp [hx]))
      have key : replaceBraces rep
          (s ++ ('{' :: '}' :: joinSep ['{', '}'] (s2 :: rest'))) =
          s ++ (rep ++ joinSep rep (s2 :: rest')) := by
        rw [replaceBraces_append rep s ('{' :: '}' ::
          joinSep ['{', '}'] (s2 :: rest')) h1 (Or.inr ⟨_, rfl⟩)]
        rw [replaceBraces, if_pos ⟨rfl, rfl⟩, ih']
      calc replaceBraces rep (joinSep ['{', '}'] (s :: s2 :: rest'))
          = replaceBraces rep (s ++ ('{' :: '}' ::
              joinSep ['{', '}'] (s2 :: rest'))) := by simp [joinSep]
        _ = s ++ (rep ++ joinSep rep (s2 :: rest')) := key
        _ = joinSep rep (s :: s2 :: rest') := by simp [joinSep]

/-- A stdin-mode task that reported success created (truncating) both `out`
and `err` under its per-file result directory. -/
theorem stdinRun_ok_mem (r : StdinRunner) (e : DirEntry) (w : TaskWorld)
    (hok : (StdinRunner.run r e w).2 = .ok ()) :
    Event.createFile ((r.destination_dir ++ [e.name]) ++ [['o', 'u', 't']]) ∈
        (StdinRunner.run r e w).1 ∧
    Event.createFile ((r.destination_dir ++ [e.name]) ++ [['e', 'r', 'r']]) ∈
        (StdinRunner.run r e w).1 := by
  cases hgc : r.get_command e with
  | error err => simp [StdinRunner.run, hgc] at hok
  | ok c =>
    cases hed : ensure_directory w.createDirAll with
    | error err => simp [StdinRunner.run, hgc, hed] at hok
    | ok u =>
      cases hco : w.createOut with
      | error err => simp [StdinRunner.run, hgc, hed, hco] at hok
      | ok u2 =>
        cases hce : w.createErr with
        | error err => simp [StdinRunner.run, hgc, hed, hco, hce] at hok
        | ok u3 =>
          cases hsp : w.spawnResult with
          | error err =>
            simp [StdinRunner.run, hgc, hed, hco, hce, hsp] at hok
          | ok u4 =>
            cases hwt : w.waitResult with
            | error err =>
              simp [StdinRunner.run, hgc, hed, hco, hce, hsp, hwt] at hok
            | ok st =>
              constructor <;>
                simp [StdinRunner.run, hgc, hed, hco, hce, hsp, hwt]

/-- If the whole batch reported success, each entry's own processing
succeeded and each entry's events are among the batch's events. -/
theorem runTasks_ok_mem
    (task : DirEntry → TaskWorld → List Event × Except IOError Unit) :
    ∀ pairs : List (DirEntry × TaskWorld),
      (Each.runTasks task pairs).2 = .ok () →
      ∀ p ∈ pairs,
        (Each.processEntry task p.1 p.2).2 = .ok () ∧
        ∀ ev ∈ (Each.processEntry task p.1 p.2).1,
          ev ∈ (Each.runTasks task pairs).1 := by
  intro pairs
  induction pairs with
  | nil => intro _ p hp; cases hp
  | cons q rest ih =>
    intro hok p hp
    cases hpe : Each.processEntry task q.1 q.2 with
    | mk evs res =>
      cases res with
      | error err => simp [Each.runTasks, hpe] at hok
      | ok u =>
        have hrun : Each.runTasks task (q :: rest) =
            (evs ++ (Each.runTasks task rest).1,
              (Each.runTasks task rest).2) := by
          simp [Each.runTasks, hpe]
        rw [hrun] at hok
        have hok' : (Each.runTasks task rest).2 = .ok () := hok
        rcases List.mem_cons.mp hp with hq | hp'
        · subst hq
          refine ⟨by simp [hpe], ?_⟩
          intro ev hev
          rw [hpe] at hev
          rw [hrun]
          simp only [List.mem_append]
          exact Or.inl (by simpa using hev)
        · have hrec := ih hok' p hp'
          refine ⟨hrec.1, ?_⟩
          intro ev hev
          rw [hrun]
          simp only [List.mem_append]
          exact Or.inr (hrec.2 ev hev)

/-- A mapped list of `task_completed` calls contains no `set_num_tasks`
call. -/
theorem countP_setNum_map (tk : DirEntry → Except IOError Int)
    (l : List DirEntry) :
    (l.map (fun e => ProgressCall.task_completed (tk e))).countP
      isSetNumTasks = 0 := by
  induction l with
  | nil => rfl
  | cons e l ih => simp [List.countP_cons, isSetNumTasks, ih]

/-- A mapped list of `task_completed` calls is all `task_completed` calls. -/
theorem countP_taskCompleted_map (tk : DirEntry → Except IOError Int)
    (l : List DirEntry) :
    (l.map (fun e => ProgressCall.task_completed (tk e))).countP
      isTaskCompleted = l.length := by
  induction l with
  | nil => rfl
  | cons e l ih => simp [List.countP_cons, isTaskCompleted, ih]

/-! Claim theorems. -/

/-- C2: In filename mode, for every source file whose path is valid text,
the command executed is `shell -c` applied to the command template with
every literal occurrence of the two-character token `{\x7d` replaced by the
file's path, and no standard-input wiring is performed. Moreover nothing
else is altered: whenever the template decomposes into brace-free segments
joined by `{\x7d`, the substituted text is exactly those segments joined by
the path. -/
theorem C2_filename_substitution (r : FilenameRunner) (e : DirEntry)
    (p : Str) (hp : e.pathText = some p) :
    FilenameRunner.get_command r e =
      .ok { program := r.shell,
            args := [['-', 'c'], replaceBraces p r.command],
            stdin := none } ∧
    ∀ pieces : List Str, r.command = joinSep ['{', '}'] pieces →
      (∀ s ∈ pieces, hasBraces s = false) →
      replaceBraces p r.command = joinSep p pieces := by
  constructor
  · simp [FilenameRunner.get_command, hp]
  · intro pieces hdec hnb
    rw [hdec]
    exact replaceBraces_joinSep p pieces hnb

/-- Witness for C2 at `sampleFilename` (command `echo {\x7d`) and
`entryGood` (path text `s/f`): the executed text is `echo s/f`. -/
theorem C2_filename_substitution_witness :
    FilenameRunner.get_command sampleFilename entryGood =
      .ok { program := sampleFilename.shell,
            args := [['-', 'c'],
              replaceBraces ['s', '/', 'f'] sampleFilename.command],
            stdin := none } ∧
    replaceBraces ['s', '/', 'f'] sampleFilename.command =
      joinSep ['s', '/', 'f'] [['e', 'c', 'h', 'o', ' '], []] :=
  ⟨(C2_filename_substitution sampleFilename entryGood ['s', '/', 'f']
      (by decide)).1,
   (C2_filename_substitution sampleFilename entryGood ['s', '/', 'f']
      (by decide)).2 [['e', 'c', 'h', 'o', ' '], []] (by decide) (by decide)⟩

/-- C3: In stdin mode, the command executed is `shell -c` applied to the
command string used verbatim, with the opened source file connected as the
child's standard input; if opening the source file fails, that I/O error is
propagated as the task's failure. -/
theorem C3_stdin_mode (r : StdinRunner) (e : DirEntry) (w : TaskWorld) :
    (e.openResult = .ok () →
      StdinRunner.get_command r e =
        .ok { program := r.shell, args := [['-', 'c'], r.command],
              stdin := some e.path }) ∧
    ∀ err : IOError, e.openResult = .error err →
      StdinRunner.run r e w = ([], .error err) := by
  constructor
  · intro h
    simp [StdinRunner.get_command, h]
  · intro err h
    simp [StdinRunner.run, StdinRunner.get_command, h]

/-- Witness for C3 at `sampleStdin` with `entryGood` (open succeeds: command
`cat` verbatim, stdin wired to `s/f`) and `entryOpenFail` (open fails: the
error is the task's failure). -/
theorem C3_stdin_mode_witness :
    StdinRunner.get_command sampleStdin entryGood =
      .ok { program := sampleStdin.shell,
            args := [['-', 'c'], sampleStdin.command],
            stdin := some entryGood.path } ∧
    StdinRunner.run sampleStdin entryOpenFail worldOk =
      ([], .error { kind := ErrorKind.otherKind }) :=
  ⟨(C3_stdin_mode sampleStdin entryGood worldOk).1 (by decide),
   (C3_stdin_mode sampleStdin entryOpenFail worldOk).2
     { kind := ErrorKind.otherKind } (by decide)⟩

/-- C9: In filename mode, a file's task fails with an "unsupported path"
error if and only if the file's path is not representable as valid text;
all valid-text paths proceed to command construction. -/
theorem C9_unsupported_path_iff (r : FilenameRunner) (e : DirEntry) :
    ((∃ err : IOError, FilenameRunner.get_command r e = .error err) ↔
      e.pathText = none) ∧
    (e.pathText = none →
      FilenameRunner.get_command r e =
        .error { kind := ErrorKind.unsupported }) ∧
    ∀ p : Str, e.pathText = some p →
      FilenameRunner.get_command r e =
        .ok { program := r.shell,
              args := [['-', 'c'], replaceBraces p r.command],
              stdin := none } := by
  refine ⟨?_, ?_, ?_⟩
  · cases h : e.pathText with
    | none => simp [FilenameRunner.get_command, h]
    | some p => simp [FilenameRunner.get_command, h]
  · intro h
    simp [FilenameRunner.get_command, h]
  · intro p h
    simp [FilenameRunner.get_command, h]

/-- Witness for C9 at `entryNonUnicode` (non-text path: `Unsupported` error)
and `entryGood` (text path: command construction proceeds). -/
theorem C9_unsupported_path_iff_witness :
    FilenameRunner.get_command sampleFilename entryNonUnicode =
      .error { kind := ErrorKind.unsupported } ∧
    FilenameRunner.get_command sampleFilename entryGood =
      .ok { program := sampleFilename.shell,
            args := [['-', 'c'],
              replaceBraces ['s', '/', 'f'] sampleFilename.command],
            stdin := none } :=
  ⟨(C9_unsupported_path_iff sampleFilename entryNonUnicode).2.1 (by decide),
   (C9_unsupported_path_iff sampleFilename entryGood).2.2 ['s', '/', 'f']
     (by decide)⟩

/-- C10: For every file whose command construction fails (source file cannot
be opened in stdin mode, or the path is not valid text in filename mode),
the task fails with that error and its event trace is empty: no result
directory, no out/err file and no spawn — command construction happens
strictly before any destination-side step. -/
theorem C10_no_destination_on_command_failure (rs : StdinRunner)
    (rf : FilenameRunner) (e : DirEntry) (w : TaskWorld) (err : IOError) :
    (StdinRunner.get_command rs e = .error err →
      StdinRunner.run rs e w = ([], .error err)) ∧
    (FilenameRunner.get_command rf e = .error err →
      FilenameRunner.run rf e w = ([], .error err)) := by
  constructor
  · intro h
    simp [StdinRunner.run, h]
  · intro h
    simp [FilenameRunner.run, h]

/-- Witness for C10: an unopenable file in stdin mode and a non-unicode path
in filename mode both fail with an empty event trace. -/
theorem C10_no_destination_on_command_failure_witness :
    StdinRunner.run sampleStdin entryOpenFail worldOk =
      ([], .error { kind := ErrorKind.otherKind }) ∧
    FilenameRunner.run sampleFilename entryNonUnicode worldOk =
      ([], .error { kind := ErrorKind.unsupported }) :=
  ⟨(C10_no_destination_on_command_failure sampleStdin sampleFilename
      entryOpenFail worldOk { kind := ErrorKind.otherKind }).1 (by decide),
   (C10_no_destination_on_command_failure sampleStdin sampleFilename
      entryNonUnicode worldOk { kind := ErrorKind.unsupported }).2
     (by decide)⟩

/-- C4: For every task whose child process is successfully spawned and
waited on, the task reports success regardless of the child's exit status
`s` (left fully unconstrained here, nonzero included): neither a task error
nor a scheduler-level error arises from the exit status. -/
theorem C4_exit_status_is_success (rs : StdinRunner) (rf : FilenameRunner)
    (e : DirEntry) (w : TaskWorld) (s : Int)
    (hopen : e.openResult = .ok ())
    (hpt : ∃ p : Str, e.pathText = some p)
    (hdir : ensure_directory w.createDirAll = .ok ())
    (hout : w.createOut = .ok ())
    (herr : w.createErr = .ok ())
    (hspawn : w.spawnResult = .ok ())
    (hwait : w.waitResult = .ok s) :
    (StdinRunner.run rs e w).2 = .ok () ∧
    (FilenameRunner.run rf e w).2 = .ok () ∧
    ∀ m : Metadata, e.metadata = .ok m →
      (Each.runTasks (StdinRunner.run rs) [(e, w)]).2 = .ok () := by
  obtain ⟨p, hp⟩ := hpt
  have h1 : (StdinRunner.run rs e w).2 = .ok () := by
    simp [StdinRunner.run, StdinRunner.get_command, hopen, hdir, hout,
      herr, hspawn, hwait]
  have h2 : (FilenameRunner.run rf e w).2 = .ok () := by
    simp [FilenameRunner.run, FilenameRunner.get_command, hp, hdir, hout,
      herr, hspawn, hwait]
  refine ⟨h1, h2, ?_⟩
  intro m hm
  cases hpe : StdinRunner.run rs e w with
  | mk evs res =>
    rw [hpe] at h1
    simp only at h1
    cases hb : m.is_file
    · simp [Each.runTasks, Each.processEntry, hm, hb]
    · simp [Each.runTasks, Each.processEntry, hm, hb, hpe, h1]

/-- Witness for C4 with the nonzero exit status 7: both runners and the
scheduler still report success. -/
theorem C4_exit_status_is_success_witness :
    (StdinRunner.run sampleStdin entryGood worldExit7).2 = .ok () ∧
    (FilenameRunner.run sampleFilename entryGood worldExit7).2 = .ok () ∧
    (Each.runTasks (StdinRunner.run sampleStdin)
      [(entryGood, worldExit7)]).2 = .ok () := by
  have h := C4_exit_status_is_success sampleStdin sampleFilename entryGood
    worldExit7 7 (by decide) ⟨['s', '/', 'f'], by decide⟩ (by decide)
    (by decide) (by decide) (by decide) (by decide)
  exact ⟨h.1, h.2.1, h.2.2 { is_file := true } (by decide)⟩

/-- C5: An empty source directory yields a successful run with zero process
invocations; after a successful run, each regular file `F` has
`destination_dir/F/out` and `destination_dir/F/err` created (truncating) on
this run; and a non-regular entry is silently skipped — no error and no
events, so no result location is created for it. -/
theorem C5_result_locations (r : StdinRunner) :
    (Each.runTasks (StdinRunner.run r) [] = ([], .ok ()) ∧
      ∀ c : Command, Event.spawned c ∉
        (Each.runTasks (StdinRunner.run r)
          ([] : List (DirEntry × TaskWorld))).1) ∧
    (∀ pairs : List (DirEntry × TaskWorld),
      (Each.runTasks (StdinRunner.run r) pairs).2 = .ok () →
      ∀ p ∈ pairs, ∀ m : Metadata,
        p.1.metadata = .ok m → m.is_file = true →
        Event.createFile
            ((r.destination_dir ++ [p.1.name]) ++ [['o', 'u', 't']]) ∈
          (Each.runTasks (StdinRunner.run r) pairs).1 ∧
        Event.createFile
            ((r.destination_dir ++ [p.1.name]) ++ [['e', 'r', 'r']]) ∈
          (Each.runTasks (StdinRunner.run r) pairs).1) ∧
    ∀ (e : DirEntry) (w : TaskWorld) (m : Metadata),
      e.metadata = .ok m → m.is_file = false →
      Each.processEntry (StdinRunner.run r) e w = ([], .ok ()) := by
  refine ⟨⟨rfl, by simp [Each.runTasks]⟩, ?_, ?_⟩
  · intro pairs hok p hp m hm hf
    have hparts := runTasks_ok_mem (StdinRunner.run r) pairs hok p hp
    have hpe : Each.processEntry (StdinRunner.run r) p.1 p.2 =
        StdinRunner.run r p.1 p.2 := by
      simp [Each.processEntry, hm, hf]
    rw [hpe] at hparts
    have hmem := stdinRun_ok_mem r p.1 p.2 hparts.1
    exact ⟨hparts.2 _ hmem.1, hparts.2 _ hmem.2⟩
  · intro e w m hm hf
    simp [Each.processEntry, hm, hf]

/-- Witness for C5: the empty batch succeeds; in a batch of a regular file
and a directory, `d/f/out` gets created and the directory entry contributes
nothing. -/
theorem C5_result_locations_witness :
    Each.runTasks (StdinRunner.run sampleStdin) [] = ([], .ok ()) ∧
    Event.createFile
        ((sampleStdin.destination_dir ++ [entryGood.name]) ++
          [['o', 'u', 't']]) ∈
      (Each.runTasks (StdinRunner.run sampleStdin)
        [(entryGood, worldOk), (entryDir, worldOk)]).1 ∧
    Each.processEntry (StdinRunner.run sampleStdin) entryDir worldOk =
      ([], .ok ()) := by
  have h := C5_result_locations sampleStdin
  refine ⟨h.1.1, ?_, h.2.2 entryDir worldOk { is_file := false }
    (by decide) (by decide)⟩
  exact (h.2.1 [(entryGood, worldOk), (entryDir, worldOk)] (by decide)
    (entryGood, worldOk) (by decide) { is_file := true } (by decide)
    (by decide)).1

/-- C6: the bounded fan-out of `try_for_each_concurrent(num_processes, ...)`
never has more than `num_processes` tasks in flight in any reachable state,
and the ceiling does not delay admission: whenever work is pending and the
ceiling is not reached, a start transition is enabled. -/
theorem C6_concurrency_ceiling (E : Each) (n : Nat) (s : SchedState) :
    (SchedReachable E n s → s.inFlight ≤ E.num_processes) ∧
    (0 < s.pending → s.inFlight < E.num_processes →
      SchedStep E s ⟨s.pending - 1, s.inFlight + 1, s.done⟩) := by
  constructor
  · intro hr
    induction hr with
    | init => exact Nat.zero_le _
    | step hr hs ih =>
      cases hs with
      | start p f d h => exact h
      | finish p f d => exact Nat.le_of_succ_le ih
  · intro hp hf
    obtain ⟨p, f, d⟩ := s
    cases p with
    | zero => exact absurd hp (by simp)
    | succ p' => simpa using SchedStep.start p' f d hf

/-- Witness for C6 with `num_processes = 1` and two tasks: the initial state
respects the ceiling and a start transition is enabled. -/
theorem C6_concurrency_ceiling_witness :
    SchedState.inFlight ⟨2, 0, 0⟩ ≤ (Each.mk [] 1).num_processes ∧
    SchedStep ⟨[], 1⟩ ⟨2, 0, 0⟩ ⟨1, 1, 0⟩ := by
  have h := C6_concurrency_ceiling ⟨[], 1⟩ 2 ⟨2, 0, 0⟩
  exact ⟨h.1 SchedReachable.init, by simpa using h.2 (by decide) (by decide)⟩

/-- C7: the (spec-modelled) progress-wired run tells the reporter the total
number of eligible tasks (regular files) exactly once, before any
completion, and calls the completion hook exactly once per eligible file —
for every outcome function, i.e. on success and failure outcomes alike. -/
theorem C7_progress_reporting (tk : DirEntry → Except IOError Int)
    (entries : List DirEntry) :
    (runWithProgress tk entries).head? =
      some (ProgressCall.set_num_tasks
        (entries.filter isRegular).length) ∧
    (runWithProgress tk entries).countP isSetNumTasks = 1 ∧
    (runWithProgress tk entries).countP isTaskCompleted =
      (entries.filter isRegular).length ∧
    (runWithProgress tk entries).tail =
      (entries.filter isRegular).map
        (fun e => ProgressCall.task_completed (tk e)) := by
  refine ⟨rfl, ?_, ?_, rfl⟩
  · simp [runWithProgress, List.countP_cons, isSetNumTasks,
      countP_setNum_map]
  · simp [runWithProgress, List.countP_cons, isTaskCompleted,
      countP_taskCompleted_map]

/-- Counterexample to C8 as stated: when `fs::create_dir_all` fails with a
`NotFound`-kind error, the failure does not propagate and does not abort the
task — `ensure_directory` swallows it, the task proceeds and the process is
spawned. -/
theorem C8_counterexample :
    worldDirNotFound.createDirAll =
      .error { kind := ErrorKind.notFound } ∧
    (StdinRunner.run sampleStdin entryGood worldDirNotFound).2 = .ok () ∧
    Event.spawned { program := sampleStdin.shell,
                    args := [['-', 'c'], sampleStdin.command],
                    stdin := some entryGood.path } ∈
      (StdinRunner.run sampleStdin entryGood worldDirNotFound).1 := by
  refine ⟨rfl, by decide, by decide⟩

/-- C8 (amended): result-directory creation is idempotent — the task
proceeds whenever `create_dir_all` succeeds, which by that function's
contract covers an already-existing directory and creates missing
intermediate segments; a directory-creation failure of any kind other than
`NotFound` propagates and aborts the task with no destination-side effects
and no spawn; a `NotFound`-kind directory-creation failure is silently
swallowed by `ensure_directory` (the task proceeds); and a failure to create
either the `out` or the `err` file propagates as that task's error before
any process is spawned. -/
theorem C8_amended (r : StdinRunner) (e : DirEntry) (w : TaskWorld)
    (hopen : e.openResult = .ok ()) :
    (∀ err : IOError, w.createDirAll = .error err →
      err.kind ≠ ErrorKind.notFound →
      StdinRunner.run r e w = ([], .error err)) ∧
    (∀ err : IOError, w.createDirAll = .error err →
      err.kind = ErrorKind.notFound →
      ensure_directory w.createDirAll = .ok ()) ∧
    (∀ err : IOError, ensure_directory w.createDirAll = .ok () →
      w.createOut = .error err →
      (StdinRunner.run r e w).2 = .error err ∧
      ∀ c : Command, Event.spawned c ∉ (StdinRunner.run r e w).1) ∧
    (∀ err : IOError, ensure_directory w.createDirAll = .ok () →
      w.createOut = .ok () → w.createErr = .error err →
      (StdinRunner.run r e w).2 = .error err ∧
      ∀ c : Command, Event.spawned c ∉ (StdinRunner.run r e w).1) := by
  have hgc : StdinRunner.get_command r e =
      .ok { program := r.shell, args := [['-', 'c'], r.command],
            stdin := some e.path } := by
    simp [StdinRunner.get_command, hopen]
  refine ⟨?_, ?_, ?_, ?_⟩
  · intro err hw hne
    have hed : ensure_directory (Except.error err) =
        (Except.error err : Except IOError Unit) := by
      cases hk : err.kind with
      | notFound => exact absurd hk hne
      | unsupported => simp [ensure_directory, hk]
      | otherKind => simp [ensure_directory, hk]
    simp [StdinRunner.run, hgc, hw, hed]
  · intro err hw hk
    rw [hw]
    simp [ensure_directory, hk]
  · intro err hed hco
    constructor
    · cases hcd : w.createDirAll with
      | ok u => simp [StdinRunner.run, ensure_directory, hgc, hco, hcd]
      | error e2 =>
        rw [hcd] at hed
        simp [StdinRunner.run, hgc, hco, hcd, hed]
    · intro c
      cases hcd : w.createDirAll with
      | ok u => simp [StdinRunner.run, ensure_directory, hgc, hco, hcd]
      | error e2 =>
        rw [hcd] at hed
        simp [StdinRunner.run, hgc, hco, hcd, hed]
  · intro err hed hco hce
    constructor
    · cases hcd : w.createDirAll with
      | ok u =>
        simp [StdinRunner.run, ensure_directory, hgc, hco, hce, hcd]
      | error e2 =>
        rw [hcd] at hed
        simp [StdinRunner.run, hgc, hco, hce, hcd, hed]
    · intro c
      cases hcd : w.createDirAll with
      | ok u =>
        simp [StdinRunner.run, ensure_directory, hgc, hco, hce, hcd]
      | error e2 =>
        rw [hcd] at hed
        simp [StdinRunner.run, hgc, hco, hce, hcd, hed]

/-- Witness for the amended C8: a non-`NotFound` directory-creation failure
aborts with no events; a `NotFound` one is swallowed; an `out`-creation
failure is the task's error. -/
theorem C8_amended_witness :
    StdinRunner.run sampleStdin entryGood worldDirOtherErr =
      ([], .error { kind := ErrorKind.otherKind }) ∧
    ensure_directory worldDirNotFound.createDirAll = .ok () ∧
    (StdinRunner.run sampleStdin entryGood worldOutFail).2 =
      .error { kind := ErrorKind.otherKind } :=
  ⟨(C8_amended sampleStdin entryGood worldDirOtherErr (by decide)).1
      { kind := ErrorKind.otherKind } (by decide) (by decide),
   (C8_amended sampleStdin entryGood worldDirNotFound (by decide)).2.1
      { kind := ErrorKind.notFound } (by decide) (by decide),
   ((C8_amended sampleStdin entryGood worldOutFail (by decide)).2.2.1
      { kind := ErrorKind.otherKind } (by decide) (by decide)).1⟩

/-- C1, evaluated at the failing input: with a first entry whose metadata
lookup fails and a regular, fully healthy sibling, the
`try_for_each_concurrent` + `?` combination in `Each::run` returns the
per-file error as the overall run result — not `Ok(())` — and the sibling
contributes nothing (empty event trace: it was never processed in this
schedule). -/
theorem C1_per_file_error_aborts_run :
    Each.runTasks (StdinRunner.run sampleStdin)
      [(entryBadMeta, worldOk), (entryGood, worldOk)] =
      ([], .error { kind := ErrorKind.otherKind }) := by
  decide

end Reach
